import Mathlib

/-!
# Verification of the `RouteBuilder` pipeline (`src/main.py`)

Shallow embedding of the route-building pipeline:

* Python floats are modelled by `PyFloat` (an exact rational, or one of the
  non-finite values `nan`, `inf`, `ninf`).  All claims under scrutiny are
  about the structure of the computation (permutations, error propagation,
  field lookups), not about rounding, so exact rationals are faithful.
* Python exceptions are modelled by `PyError`; fallible code returns
  `Except PyError α`.  The source defines no custom exception classes: it
  raises bare `Exception(msg)` (modelled `PyError.exceptionMsg msg`) and
  builtin lookup errors (`keyError`, `indexError`, `valueError`, `typeError`).
* Parsed JSON bodies are modelled by `Json`; the two HTTP round trips are
  modelled by supplying the responses (`HttpResponse`) as parameters, since
  the network is outside the program.
* `scipy.optimize.linear_sum_assignment` is external library code invoked by
  `_optimize_route_scipy`; it is embedded by its documented semantics: on a
  2-D rectangular cost matrix it returns a minimum-cost matching of size
  `min (rows, cols)` with the row indices sorted ascending, raising
  `ValueError` on `NaN` or `-inf` entries ("matrix contains invalid numeric
  entries"), on non-2-D input, or when no feasible matching exists
  ("cost matrix is infeasible"); `+inf` entries are permitted but cannot be
  assigned.  Ties between optimal matchings are broken by a fixed
  deterministic policy (lexicographically least), consistent with the
  solver being a deterministic function of its input.
-/

/-- A Python float: either a finite value (modelled exactly as a rational)
or one of the non-finite IEEE values. -/
inductive PyFloat where
  | finite (q : ℚ)
  | nan
  | inf
  | ninf
deriving DecidableEq, Repr

/-- Returns `true` exactly for finite values. -/
def PyFloat.isFinite : PyFloat → Bool
  | .finite _ => true
  | _ => false

/-- scipy rejects `NaN` and `-inf` entries outright ("matrix contains
invalid numeric entries"); `+inf` is allowed (it marks a forbidden
assignment). -/
def PyFloat.isInvalidEntry : PyFloat → Bool
  | .nan => true
  | .ninf => true
  | _ => false

/-- A raised Python exception.  The source raises only bare
`Exception(msg)` plus the builtin lookup/conversion errors. -/
inductive PyError where
  | exceptionMsg (msg : String)
  | keyError (key : String)
  | indexError
  | valueError (msg : String)
  | typeError (msg : String)
deriving DecidableEq, Repr

/-- A parsed JSON value (the result of `response.json()`). -/
inductive Json where
  | obj (fields : List (String × Json))
  | arr (elems : List Json)
  | num (q : ℚ)
  | str (s : String)
  | null
deriving Repr

/-- Lookup of a key in a JSON object's field list (Python `dict` semantics:
keys are unique, first match wins). -/
def Json.lookupField (fields : List (String × Json)) (k : String) : Option Json :=
  match fields.find? (fun p => p.1 = k) with
  | some p => some p.2
  | none => none

/-- Python subscript `data[k]` on a parsed JSON value: `KeyError` when an
object lacks the key, `TypeError` otherwise. -/
def Json.subscript (j : Json) (k : String) : Except PyError Json :=
  match j with
  | .obj fields =>
    match Json.lookupField fields k with
    | some v => Except.ok v
    | none => Except.error (PyError.keyError k)
  | _ => Except.error (PyError.typeError "value is not subscriptable by string")

/-- Python subscript `data[i]` on a parsed JSON array: `IndexError` when out
of range, `TypeError` on non-arrays. -/
def Json.index (j : Json) (i : Nat) : Except PyError Json :=
  match j with
  | .arr elems =>
    match elems.get? i with
    | some v => Except.ok v
    | none => Except.error PyError.indexError
  | _ => Except.error (PyError.typeError "value is not subscriptable by index")

/-! ## The assignment solver (`scipy.optimize.linear_sum_assignment`) -/

/-- The cost-matrix entry at row `i`, column `j` (`none` when out of range). -/
def entryAt (mat : List (List PyFloat)) (i j : Nat) : Option PyFloat :=
  (mat.get? i).bind (fun row => row.get? j)

/-- Total cost of a list of (row, column) assignment pairs: `some` of the sum
when every assigned entry exists and is finite, `none` otherwise (an
assignment using a missing, `NaN` or infinite entry is infeasible). -/
def pairsCost (mat : List (List PyFloat)) : List (Nat × Nat) → Option ℚ
  | [] => some 0
  | p :: rest =>
    match entryAt mat p.1 p.2, pairsCost mat rest with
    | some (PyFloat.finite q), some s => some (q + s)
    | _, _ => none

/-- All ways of inserting `a` into a list (used to enumerate permutations by
structural recursion). -/
def insertEverywhere {α : Type} (a : α) : List α → List (List α)
  | [] => [[a]]
  | b :: t => (a :: b :: t) :: (insertEverywhere a t).map (fun l => b :: l)

/-- All permutations of a list, by structural recursion. -/
def permsOf {α : Type} : List α → List (List α)
  | [] => [[]]
  | a :: t => (permsOf t).flatMap (insertEverywhere a)

/-- All injective column lists of length `k` drawn from `[0, m)`: the
permutations of each `k`-element subset of `List.range m`. -/
def injLists (m k : Nat) : List (List Nat) :=
  (((List.range m).sublists.filter (fun l => l.length = k)).map permsOf).flatten

/-- All candidate matchings of size `k` for an `n × m` matrix: a sorted list
of `k` distinct rows paired with an injective list of `k` columns. -/
def allCandidates (n m k : Nat) : List (List Nat × List Nat) :=
  (((List.range n).sublists.filter (fun l => l.length = k)).map
    (fun rows => (injLists m k).map (fun cols => (rows, cols)))).flatten

/-- The feasible matchings with their total costs. -/
def feasibleCandidates (mat : List (List PyFloat)) (n m k : Nat) :
    List ((List Nat × List Nat) × ℚ) :=
  (allCandidates n m k).filterMap
    (fun rc => (pairsCost mat (rc.1.zip rc.2)).map (fun c => (rc, c)))

/-- Lexicographic strict order on `List Nat`, used only as the fixed
deterministic tie-break between equally cheap matchings. -/
def lexLtN : List Nat → List Nat → Bool
  | [], [] => false
  | [], _ :: _ => true
  | _ :: _, [] => false
  | a :: as, b :: bs => a < b || (a = b && lexLtN as bs)

/-- Candidate `x` beats `y`: strictly cheaper, or equally cheap and lexicographically
earlier. -/
def betterCand (x y : (List Nat × List Nat) × ℚ) : Bool :=
  x.2 < y.2 ||
    (x.2 = y.2 &&
      (lexLtN x.1.1 y.1.1 || (x.1.1 = y.1.1 && lexLtN x.1.2 y.1.2)))

/-- Select the best (cheapest, tie-broken) candidate. -/
def pickBest : List ((List Nat × List Nat) × ℚ) → Option ((List Nat × List Nat) × ℚ)
  | [] => none
  | x :: xs =>
    match pickBest xs with
    | none => some x
    | some y => if betterCand y x then some y else some x

/-- The solver `scipy.optimize.linear_sum_assignment` on a cost matrix given as a nested
list (the `np.array` the source passes in), by its documented semantics
(see the module comment): returns `(row_ind, col_ind)`, a minimum-cost
matching of size `min (rows, cols)` with `row_ind` sorted ascending, or
raises `ValueError` for non-2-D input, invalid entries, or infeasibility. -/
def linear_sum_assignment (mat : List (List PyFloat)) :
    Except PyError (List Nat × List Nat) :=
  let n := mat.length
  if n = 0 then
    Except.error (PyError.valueError "expected a matrix (2-D array), got a 1-D array")
  else
    let m := (mat.headD []).length
    if mat.all (fun row => row.length = m) then
      if mat.any (fun row => row.any PyFloat.isInvalidEntry) then
        Except.error (PyError.valueError "matrix contains invalid numeric entries")
      else
        match pickBest (feasibleCandidates mat n m (min n m)) with
        | some best => Except.ok best.1
        | none => Except.error (PyError.valueError "cost matrix is infeasible")
    else
      Except.error (PyError.valueError "setting an array element with a sequence (inhomogeneous shape)")

/-- Evaluate `f` left to right over a list, stopping at the first raised
error (the evaluation order of a Python list comprehension). -/
def mapExcept {α : Type} (f : Nat → Except PyError α) : List Nat → Except PyError (List α)
  | [] => Except.ok []
  | x :: xs =>
    match f x with
    | Except.error e => Except.error e
    | Except.ok v =>
      match mapExcept f xs with
      | Except.error e => Except.error e
      | Except.ok vs => Except.ok (v :: vs)

/-- Python `row_ind[i]`: `IndexError` when `i` is out of range. -/
def listAt (l : List Nat) (i : Nat) : Except PyError Nat :=
  match l.get? i with
  | some v => Except.ok v
  | none => Except.error PyError.indexError

/-- Python `xs[i]` on an arbitrary list: `IndexError` when out of range
(the lookup of `list(self.locations.values())[i]`). -/
def valuesAt {α : Type} (values : List α) (i : Nat) : Except PyError α :=
  match values.get? i with
  | some v => Except.ok v
  | none => Except.error PyError.indexError

/-- Method `RouteBuilder._optimize_route_scipy` (src/main.py:129-140):
`row_ind, col_ind = linear_sum_assignment(distance_matrix)` followed by
`return [row_ind[i] for i in col_ind]`. -/
def _optimize_route_scipy (distance_matrix : List (List PyFloat)) :
    Except PyError (List Nat) :=
  match linear_sum_assignment distance_matrix with
  | Except.error e => Except.error e
  | Except.ok rc => mapExcept (listAt rc.1) rc.2

/-! ## The HTTP boundary and response parsing -/

/-- An HTTP response: the status code and the parsed JSON body (`response.json()`). -/
structure HttpResponse where
  status_code : Nat
  body : Json
deriving Repr

/-- The external OSRM service, as seen by one build: the response to the
table (distance-matrix) request and the response to the route (geometry)
request.  The source constructs the request URLs from the locations and
performs `requests.get`; the responses are supplied here as the
environment. -/
structure OsrmEnv where
  tableResp : HttpResponse
  routeResp : HttpResponse
deriving Repr

/-- The location mapping `Dict[str, Tuple[float, float]]`: an
insertion-ordered association of unique names to `(latitude, longitude)`. -/
abbrev Locations := List (String × (ℚ × ℚ))

/-- Python dict subscript `locations[k]`: `KeyError` when the key is absent. -/
def dictGet (locations : Locations) (k : String) : Except PyError (ℚ × ℚ) :=
  match locations.find? (fun p => p.1 = k) with
  | some p => Except.ok p.2
  | none => Except.error (PyError.keyError k)

/-- A JSON array of numbers, as one matrix row. -/
def jsonNumRow : Json → Option (List PyFloat)
  | .arr elems =>
    let step : Json → Option (List PyFloat) → Option (List PyFloat) := fun e acc =>
      match e, acc with
      | .num q, some vs => some (PyFloat.finite q :: vs)
      | _, _ => none
    elems.foldr step (some [])
  | _ => none

/-- A JSON array of such rows. -/
def jsonNumRows : List Json → Option (List (List PyFloat))
  | [] => some []
  | e :: es =>
    match jsonNumRow e, jsonNumRows es with
    | some r, some rs => some (r :: rs)
    | _, _ => none

/-- The effect of `np.array(...)` on the parsed `distances` field, to the extent the
pipeline consumes it: a rectangular array of numbers becomes a nested list
of finite floats; anything else (ragged rows, non-numeric elements,
a non-array) fails to become a numeric 2-D array and is reported as a
`ValueError` (numpy rejects inhomogeneous input; scipy rejects what numpy
lets through as a non-numeric or non-2-D array). -/
def npArray2D (j : Json) : Except PyError (List (List PyFloat)) :=
  match j with
  | .arr rows =>
    match jsonNumRows rows with
    | some m =>
      if m.all (fun r => r.length = (m.headD []).length) then Except.ok m
      else Except.error (PyError.valueError "setting an array element with a sequence (inhomogeneous shape)")
    | none => Except.error (PyError.valueError "could not construct a numeric 2-D array")
  | _ => Except.error (PyError.valueError "expected a matrix (2-D array)")

/-- Method `RouteBuilder._get_distance_matrix` (src/main.py:106-127): issue the
table request (the response comes from the environment), raise the bare
`Exception("Failed to obtain distance matrix from OSRM")` on a non-200
status, then return `np.array(data["distances"])` — with no check that the
result is N×N. -/
def _get_distance_matrix (locations : Locations) (resp : HttpResponse) :
    Except PyError (List (List PyFloat)) :=
  if resp.status_code ≠ 200 then
    Except.error (PyError.exceptionMsg "Failed to obtain distance matrix from OSRM")
  else
    match resp.body.subscript "distances" with
    | Except.error e => Except.error e
    | Except.ok d => npArray2D d

/-- Method `RouteBuilder._get_route_via_osrm` (src/main.py:83-104): issue the route
request, raise the bare `Exception("Failed to obtain a route from OSRM")` on
a non-200 status, then return `data["routes"][0]["geometry"]["coordinates"]`
(raising the builtin lookup errors when fields are missing). -/
def _get_route_via_osrm (ordered_locations : List (ℚ × ℚ)) (resp : HttpResponse) :
    Except PyError Json :=
  if resp.status_code ≠ 200 then
    Except.error (PyError.exceptionMsg "Failed to obtain a route from OSRM")
  else
    match resp.body.subscript "routes" with
    | Except.error e => Except.error e
    | Except.ok routes =>
      match routes.index 0 with
      | Except.error e => Except.error e
      | Except.ok r0 =>
        match r0.subscript "geometry" with
        | Except.error e => Except.error e
        | Except.ok geom => geom.subscript "coordinates"

/-- One point of the polyline: Python unpacks each coordinate as
`lng, lat` (a two-element sequence) and emits the swapped pair
`(lat, lng)`. -/
def unpackSwap : Json → Except PyError (ℚ × ℚ)
  | .arr [.num lng, .num lat] => Except.ok (lat, lng)
  | _ => Except.error (PyError.valueError "cannot unpack coordinate pair")

/-- The list comprehension `[(lat, lng) for lng, lat in route_coordinates]`. -/
def swapAll : List Json → Except PyError (List (ℚ × ℚ))
  | [] => Except.ok []
  | e :: es =>
    match unpackSwap e with
    | Except.error err => Except.error err
    | Except.ok p =>
      match swapAll es with
      | Except.error err => Except.error err
      | Except.ok ps => Except.ok (p :: ps)

/-- The rendered map (`folium.Map` with one `PolyLine` and the markers),
to the extent the pipeline constructs it: the viewport center
`list(self.locations["warehouse"])`, the fixed zoom, the polyline points in
`(lat, lng)` order, and one `(name, coords)` marker per location in
insertion order. -/
structure FoliumMap where
  location : List ℚ
  zoom_start : Nat
  polyline : List (ℚ × ℚ)
  markers : List (String × (ℚ × ℚ))
deriving DecidableEq, Repr

/-- Method `RouteBuilder._visualize_route` (src/main.py:60-81): center the map on
`self.locations["warehouse"]` (a `KeyError` when absent), draw the polyline
through the swapped route coordinates, and add one marker per location. -/
def _visualize_route (locations : Locations) (route_coordinates : Json) :
    Except PyError FoliumMap :=
  match dictGet locations "warehouse" with
  | Except.error e => Except.error e
  | Except.ok wh =>
    match route_coordinates with
    | .arr elems =>
      match swapAll elems with
      | Except.error e => Except.error e
      | Except.ok pts =>
        Except.ok { location := [wh.1, wh.2], zoom_start := 4,
                    polyline := pts, markers := locations }
    | _ => Except.error (PyError.typeError "route coordinates are not iterable")

/-! ## The build entry point -/

/-- The extension component of `os.path.splitext`: scan the characters, reset at
each path separator, and remember the suffix starting at the last dot that
is preceded (within the basename) by some non-dot character. -/
def splitextAux : List Char → Bool → List Char → List Char
  | [], _, cand => cand
  | c :: rest, seenNonDot, cand =>
    if c = '/' then splitextAux rest false []
    else if c = '.' then splitextAux rest seenNonDot (if seenNonDot then c :: rest else cand)
    else splitextAux rest true cand

/-- The `ext` of `_, ext = os.path.splitext(filename)`. -/
def splitext_ext (s : String) : String :=
  String.mk (splitextAux s.toList false [])

/-- The warning logged for an unexpected extension (src/main.py:45-48). -/
def extensionWarning (ext : String) : String :=
  "The filename extension should be '.html', provided '" ++ ext ++ "'."

/-- A successful build: the warnings logged on the way, the filename passed
to `route_map.save`, and the saved map.  A build that raises writes no
file (the `save` call is never reached), which the `Except` result type
makes structural. -/
structure BuildOk where
  warnings : List String
  saved_filename : String
  saved_map : FoliumMap
deriving DecidableEq, Repr

/-- Method `RouteBuilder.build` (src/main.py:36-58): warn (non-fatally) when the
extension is not `.html`; fetch the distance matrix; optimize the order;
reorder the location values by the returned indices
(`list(self.locations.values())[i]`, an `IndexError` when out of range);
fetch the route geometry; render; save under the literal `filename`. -/
def build (locations : Locations) (env : OsrmEnv) (filename : String) :
    Except PyError BuildOk :=
  let warnings :=
    if splitext_ext filename ≠ ".html" then [extensionWarning (splitext_ext filename)] else []
  match _get_distance_matrix locations env.tableResp with
  | Except.error e => Except.error e
  | Except.ok distance_matrix =>
    match _optimize_route_scipy distance_matrix with
    | Except.error e => Except.error e
    | Except.ok route_order =>
      let values := locations.map Prod.snd
      match mapExcept (valuesAt values) route_order with
      | Except.error e => Except.error e
      | Except.ok ordered_locations =>
        match _get_route_via_osrm ordered_locations env.routeResp with
        | Except.error e => Except.error e
        | Except.ok route_coordinates =>
          match _visualize_route locations route_coordinates with
          | Except.error e => Except.error e
          | Except.ok route_map =>
            Except.ok { warnings := warnings, saved_filename := filename,
                        saved_map := route_map }

/-- The filename-independent part of `build`: the four pipeline stages in
order (distance matrix, route order, reordering, geometry, rendering),
stopping at the first raised error. -/
def buildPipeline (locations : Locations) (env : OsrmEnv) : Except PyError FoliumMap :=
  match _get_distance_matrix locations env.tableResp with
  | Except.error e => Except.error e
  | Except.ok distance_matrix =>
    match _optimize_route_scipy distance_matrix with
    | Except.error e => Except.error e
    | Except.ok route_order =>
      match mapExcept (valuesAt (locations.map Prod.snd)) route_order with
      | Except.error e => Except.error e
      | Except.ok ordered_locations =>
        match _get_route_via_osrm ordered_locations env.routeResp with
        | Except.error e => Except.error e
        | Except.ok route_coordinates => _visualize_route locations route_coordinates

/-! ## Spec-side definitions (for the refinement claim) -/

/-- An entry that exists and is strictly positive. -/
def entryPos (mat : List (List PyFloat)) (i j : Nat) : Bool :=
  match entryAt mat i j with
  | some (PyFloat.finite q) => decide (0 < q)
  | _ => false

/-- Modelled from the spec: the total assigned distance of the assignment
that sends row `i` to column `p i`, namely the sum of `mat[i][p[i]]` over
the rows (defined when every assigned entry is a finite number). -/
def specAssignmentCost (mat : List (List PyFloat)) (p : List Nat) : Option ℚ :=
  pairsCost mat ((List.range mat.length).zip p)

/-- Modelled from the spec: `p` is a minimum-weight assignment — a bijection
between row indices and column indices (a permutation of `[0, N)`, read out
in row order) whose total assigned distance is least among all such
bijections. -/
def IsMinimumWeightAssignment (mat : List (List PyFloat)) (p : List Nat) : Prop :=
  p.Perm (List.range mat.length) ∧
  ∃ c, specAssignmentCost mat p = some c ∧
    ∀ q c', q.Perm (List.range mat.length) → specAssignmentCost mat q = some c' → c ≤ c'

/-! ## Concrete test fixtures (used to instantiate the theorems below) -/

/-- The 2×2 distance matrix of end-to-end scenario A: `[[0, 10], [10, 0]]`. -/
def matFix2 : List (List PyFloat) :=
  [[PyFloat.finite 0, PyFloat.finite 10], [PyFloat.finite 10, PyFloat.finite 0]]

/-- Scenario A locations: a warehouse and one store. -/
def locA : Locations := [("warehouse", (0, 0)), ("store", (1, 1))]

/-- Scenario A distance-service body: `{"distances": [[0, 10], [10, 0]]}`. -/
def tableBodyA : Json :=
  Json.obj [("distances",
    Json.arr [Json.arr [Json.num 0, Json.num 10], Json.arr [Json.num 10, Json.num 0]])]

/-- Scenario A geometry-service body:
`{"routes": [{"geometry": {"coordinates": [[0,0],[0.5,0.5],[1,1]]}}]}`. -/
def routeBodyA : Json :=
  Json.obj [("routes", Json.arr [Json.obj [("geometry", Json.obj [("coordinates",
    Json.arr [Json.arr [Json.num 0, Json.num 0], Json.arr [Json.num (1/2), Json.num (1/2)],
      Json.arr [Json.num 1, Json.num 1]])])]])]

/-- Scenario A environment: both services respond 200 with the bodies above. -/
def envA : OsrmEnv := ⟨⟨200, tableBodyA⟩, ⟨200, routeBodyA⟩⟩

/-- The map scenario A renders. -/
def mapA : FoliumMap :=
  { location := [0, 0], zoom_start := 4,
    polyline := [(0, 0), (1/2, 1/2), (1, 1)],
    markers := locA }

/-! ## Helper lemmas -/

theorem betterCand_true_le {x y : (List Nat × List Nat) × ℚ} (h : betterCand x y = true) :
    x.2 ≤ y.2 := by
  simp only [betterCand, Bool.or_eq_true, Bool.and_eq_true, decide_eq_true_eq] at h
  rcases h with h | ⟨h, _⟩
  · exact le_of_lt h
  · exact le_of_eq h

theorem betterCand_false_le {x y : (List Nat × List Nat) × ℚ} (h : betterCand x y = false) :
    y.2 ≤ x.2 := by
  simp only [betterCand, Bool.or_eq_false_iff, Bool.and_eq_false_iff, decide_eq_false_iff_not] at h
  exact le_of_not_lt h.1

theorem pickBest_isSome (l : List ((List Nat × List Nat) × ℚ))
    (h : l ≠ []) : ∃ x, pickBest l = some x := by
  cases l with
  | nil => exact absurd rfl h
  | cons a t =>
    simp only [pickBest]
    cases pickBest t with
    | none => exact ⟨a, rfl⟩
    | some y =>
      by_cases hb : betterCand y a = true
      · exact ⟨y, by simp [hb]⟩
      · exact ⟨a, by simp [hb]⟩

theorem pickBest_none_eq_nil {l : List ((List Nat × List Nat) × ℚ)}
    (h : pickBest l = none) : l = [] := by
  cases l with
  | nil => rfl
  | cons a t =>
    rcases pickBest_isSome (a :: t) (by simp) with ⟨x, hx⟩
    rw [h] at hx
    cases hx

theorem pickBest_mem :
    ∀ (l : List ((List Nat × List Nat) × ℚ)) (x : (List Nat × List Nat) × ℚ),
      pickBest l = some x → x ∈ l := by
  intro l
  induction l with
  | nil => intro x h; simp [pickBest] at h
  | cons a t ih =>
    intro x h
    simp only [pickBest] at h
    cases ht : pickBest t with
    | none =>
      simp only [ht] at h
      cases h
      exact List.mem_cons_self a t
    | some y =>
      simp only [ht] at h
      by_cases hb : betterCand y a = true
      · rw [if_pos hb] at h
        cases h
        exact List.mem_cons_of_mem a (ih x ht)
      · rw [if_neg hb] at h
        cases h
        exact List.mem_cons_self a t

theorem pickBest_min :
    ∀ (l : List ((List Nat × List Nat) × ℚ)) (x : (List Nat × List Nat) × ℚ),
      pickBest l = some x → ∀ y ∈ l, x.2 ≤ y.2 := by
  intro l
  induction l with
  | nil => intro x h; simp [pickBest] at h
  | cons a t ih =>
    intro x h y hy
    simp only [pickBest] at h
    cases ht : pickBest t with
    | none =>
      simp only [ht] at h
      cases h
      have hte : t = [] := pickBest_none_eq_nil ht
      subst hte
      rcases List.mem_singleton.mp hy with rfl
      exact le_refl _
    | some z =>
      simp only [ht] at h
      by_cases hb : betterCand z a = true
      · rw [if_pos hb] at h
        injection h with h'
        subst h'
        rcases List.mem_cons.mp hy with heq | hyt
        · rw [heq]; exact betterCand_true_le hb
        · exact ih z ht y hyt
      · rw [if_neg hb] at h
        injection h with h'
        subst h'
        rcases List.mem_cons.mp hy with heq | hyt
        · rw [heq]
        · have hb' : betterCand z a = false := by
            rw [← Bool.not_eq_true]; exact hb
          exact le_trans (betterCand_false_le hb') (ih z ht y hyt)

theorem mem_insertEverywhere_perm {α : Type} {a : α} :
    ∀ {s l : List α}, l ∈ insertEverywhere a s → l.Perm (a :: s) := by
  intro s
  induction s with
  | nil =>
    intro l hl
    rw [insertEverywhere, List.mem_singleton] at hl
    rw [hl]
  | cons b t ih =>
    intro l hl
    rw [insertEverywhere] at hl
    rcases List.mem_cons.mp hl with heq | hmem
    · rw [heq]
    · rcases List.mem_map.mp hmem with ⟨l', hl', rfl⟩
      exact ((ih hl').cons b).trans (List.Perm.swap a b t)

theorem append_mem_insertEverywhere {α : Type} (a : α) :
    ∀ (l₁ l₂ : List α), (l₁ ++ a :: l₂) ∈ insertEverywhere a (l₁ ++ l₂) := by
  intro l₁
  induction l₁ with
  | nil => intro l₂; cases l₂ <;> exact List.mem_cons_self _ _
  | cons b t ih =>
    intro l₂
    rw [List.cons_append, List.cons_append, insertEverywhere]
    exact List.mem_cons_of_mem _ (List.mem_map.mpr ⟨t ++ a :: l₂, ih l₂, rfl⟩)

theorem mem_permsOf {α : Type} : ∀ {s l : List α}, l ∈ permsOf s ↔ l.Perm s := by
  intro s
  induction s with
  | nil =>
    intro l
    rw [permsOf, List.mem_singleton]
    exact ⟨fun h => h ▸ List.Perm.refl _, fun h => h.eq_nil⟩
  | cons a t ih =>
    intro l
    rw [permsOf, List.mem_flatMap]
    constructor
    · rintro ⟨p, hp, hl⟩
      exact (mem_insertEverywhere_perm hl).trans ((ih.mp hp).cons a)
    · intro hl
      have ha : a ∈ l := hl.mem_iff.mpr (List.mem_cons_self a t)
      rcases List.append_of_mem ha with ⟨l₁, l₂, rfl⟩
      refine ⟨l₁ ++ l₂, ih.mpr ?_, append_mem_insertEverywhere a l₁ l₂⟩
      exact (List.perm_middle.symm.trans hl).cons_inv

theorem mem_injLists {m k : Nat} {cols : List Nat} :
    cols ∈ injLists m k ↔
      ∃ s, List.Sublist s (List.range m) ∧ s.length = k ∧ cols.Perm s := by
  simp only [injLists, List.mem_flatten, List.mem_map, List.mem_filter, List.mem_sublists,
    decide_eq_true_eq]
  constructor
  · rintro ⟨ps, ⟨s, ⟨hs, hk⟩, rfl⟩, hmem⟩
    exact ⟨s, hs, hk, mem_permsOf.mp hmem⟩
  · rintro ⟨s, hs, hk, hperm⟩
    exact ⟨permsOf s, ⟨s, ⟨hs, hk⟩, rfl⟩, mem_permsOf.mpr hperm⟩

theorem mem_allCandidates {n m k : Nat} {rc : List Nat × List Nat} :
    rc ∈ allCandidates n m k ↔
      (List.Sublist rc.1 (List.range n) ∧ rc.1.length = k ∧ rc.2 ∈ injLists m k) := by
  obtain ⟨rows, cols⟩ := rc
  simp only [allCandidates, List.mem_flatten, List.mem_map, List.mem_filter, List.mem_sublists,
    decide_eq_true_eq]
  constructor
  · rintro ⟨cands, ⟨r, ⟨hr, hk⟩, rfl⟩, hmem⟩
    rcases List.mem_map.mp hmem with ⟨c, hc, heq⟩
    cases heq
    exact ⟨hr, hk, hc⟩
  · rintro ⟨hr, hk, hc⟩
    exact ⟨(injLists m k).map (fun cols => (rows, cols)), ⟨rows, ⟨hr, hk⟩, rfl⟩,
      List.mem_map.mpr ⟨cols, hc, rfl⟩⟩

theorem mem_feasibleCandidates {mat : List (List PyFloat)} {n m k : Nat}
    {x : (List Nat × List Nat) × ℚ} :
    x ∈ feasibleCandidates mat n m k ↔
      (x.1 ∈ allCandidates n m k ∧ pairsCost mat (x.1.1.zip x.1.2) = some x.2) := by
  obtain ⟨rc, c⟩ := x
  simp only [feasibleCandidates, List.mem_filterMap, Option.map_eq_some']
  constructor
  · rintro ⟨rc', hmem, c', hc', heq⟩
    cases heq
    exact ⟨hmem, hc'⟩
  · rintro ⟨hmem, hc⟩
    exact ⟨rc, hmem, c, hc, rfl⟩

theorem mem_allCandidates_square {n : Nat} {rc : List Nat × List Nat}
    (h : rc ∈ allCandidates n n n) :
    rc.1 = List.range n ∧ rc.2.Perm (List.range n) := by
  rcases mem_allCandidates.mp h with ⟨hsub, hlen, hinj⟩
  have hrows : rc.1 = List.range n :=
    hsub.eq_of_length (by rw [hlen, List.length_range])
  rcases mem_injLists.mp hinj with ⟨s, hs, hk, hperm⟩
  have hseq : s = List.range n := hs.eq_of_length (by rw [hk, List.length_range])
  exact ⟨hrows, hseq ▸ hperm⟩

theorem identity_mem_allCandidates (n : Nat) :
    (List.range n, List.range n) ∈ allCandidates n n n := by
  refine mem_allCandidates.mpr ⟨List.Sublist.refl _, List.length_range n, ?_⟩
  exact mem_injLists.mpr ⟨List.range n, List.Sublist.refl _, List.length_range n, List.Perm.refl _⟩

theorem pairsCost_all_some {mat : List (List PyFloat)} :
    ∀ {ps : List (Nat × Nat)},
      (∀ p ∈ ps, ∃ q, entryAt mat p.1 p.2 = some (PyFloat.finite q)) →
      ∃ c, pairsCost mat ps = some c := by
  intro ps
  induction ps with
  | nil => intro _; exact ⟨0, rfl⟩
  | cons p rest ih =>
    intro h
    rcases h p (List.mem_cons_self p rest) with ⟨q, hq⟩
    rcases ih (fun p' hp' => h p' (List.mem_cons_of_mem p hp')) with ⟨c, hc⟩
    exact ⟨q + c, by simp only [pairsCost, hq, hc]⟩

theorem pairsCost_zero {mat : List (List PyFloat)} :
    ∀ {ps : List (Nat × Nat)},
      (∀ p ∈ ps, entryAt mat p.1 p.2 = some (PyFloat.finite 0)) →
      pairsCost mat ps = some 0 := by
  intro ps
  induction ps with
  | nil => intro _; rfl
  | cons p rest ih =>
    intro h
    have hq := h p (List.mem_cons_self p rest)
    have hc := ih (fun p' hp' => h p' (List.mem_cons_of_mem p hp'))
    simp only [pairsCost, hq, hc, zero_add]

theorem pairsCost_nonneg {mat : List (List PyFloat)} :
    ∀ {ps : List (Nat × Nat)} {c : ℚ},
      (∀ p ∈ ps, ∀ q, entryAt mat p.1 p.2 = some (PyFloat.finite q) → 0 ≤ q) →
      pairsCost mat ps = some c → 0 ≤ c := by
  intro ps
  induction ps with
  | nil =>
    intro c _ hc
    simp only [pairsCost, Option.some_inj] at hc
    rw [← hc]
  | cons p rest ih =>
    intro c h hc
    simp only [pairsCost] at hc
    cases he : entryAt mat p.1 p.2 with
    | none => rw [he] at hc; cases hc
    | some x =>
      cases x with
      | finite q =>
        rw [he] at hc
        cases hr : pairsCost mat rest with
        | none => rw [hr] at hc; cases hc
        | some s =>
          rw [hr] at hc
          injection hc with hc'
          have h0q : 0 ≤ q := h p (List.mem_cons_self p rest) q he
          have h0s : 0 ≤ s := ih (fun p' hp' => h p' (List.mem_cons_of_mem p hp')) hr
          rw [← hc']
          exact add_nonneg h0q h0s
      | nan => rw [he] at hc; cases hc
      | inf => rw [he] at hc; cases hc
      | ninf => rw [he] at hc; cases hc

theorem pairsCost_pos {mat : List (List PyFloat)} :
    ∀ {ps : List (Nat × Nat)} {c : ℚ},
      (∀ p ∈ ps, ∀ q, entryAt mat p.1 p.2 = some (PyFloat.finite q) → 0 ≤ q) →
      pairsCost mat ps = some c →
      (∃ p ∈ ps, ∀ q, entryAt mat p.1 p.2 = some (PyFloat.finite q) → 0 < q) →
      0 < c := by
  intro ps
  induction ps with
  | nil =>
    intro c _ _ hp
    rcases hp with ⟨p, hp, _⟩
    cases hp
  | cons p rest ih =>
    intro c h hc hp
    simp only [pairsCost] at hc
    cases he : entryAt mat p.1 p.2 with
    | none => rw [he] at hc; cases hc
    | some x =>
      cases x with
      | finite q =>
        rw [he] at hc
        cases hr : pairsCost mat rest with
        | none => rw [hr] at hc; cases hc
        | some s =>
          rw [hr] at hc
          injection hc with hc'
          rw [← hc']
          have h0s : 0 ≤ s := pairsCost_nonneg (fun p' hp' => h p' (List.mem_cons_of_mem p hp')) hr
          have h0q : 0 ≤ q := h p (List.mem_cons_self p rest) q he
          rcases hp with ⟨p', hp', hpos⟩
          rcases List.mem_cons.mp hp' with heq | hmem
          · have : 0 < q := by
              apply hpos
              rw [← heq] at he
              exact he
            exact add_pos_of_pos_of_nonneg this h0s
          · have : 0 < s :=
              ih (fun p2 hp2 => h p2 (List.mem_cons_of_mem p hp2)) hr ⟨p', hmem, hpos⟩
            exact add_pos_of_nonneg_of_pos h0q this
      | nan => rw [he] at hc; cases hc
      | inf => rw [he] at hc; cases hc
      | ninf => rw [he] at hc; cases hc

theorem entryAt_of_bounds {mat : List (List PyFloat)} {n i j : Nat}
    (hlen : mat.length = n) (hrows : ∀ r ∈ mat, r.length = n)
    (hi : i < n) (hj : j < n) :
    ∃ x, entryAt mat i j = some x ∧ ∃ r ∈ mat, x ∈ r := by
  have hi' : i < mat.length := by rw [hlen]; exact hi
  have hrmem : mat[i] ∈ mat := List.getElem_mem hi'
  have hj' : j < mat[i].length := by rw [hrows mat[i] hrmem]; exact hj
  refine ⟨mat[i][j], ?_, mat[i], hrmem, List.getElem_mem hj'⟩
  simp [entryAt, List.getElem?_eq_getElem hi', List.getElem?_eq_getElem hj']

theorem entryAt_finite {mat : List (List PyFloat)} {n i j : Nat}
    (hlen : mat.length = n) (hrows : ∀ r ∈ mat, r.length = n)
    (hfin : ∀ r ∈ mat, ∀ x ∈ r, x.isFinite = true)
    (hi : i < n) (hj : j < n) :
    ∃ q, entryAt mat i j = some (PyFloat.finite q) := by
  rcases entryAt_of_bounds hlen hrows hi hj with ⟨x, hx, r, hrmem, hxmem⟩
  have := hfin r hrmem x hxmem
  cases x with
  | finite q => exact ⟨q, hx⟩
  | nan => simp [PyFloat.isFinite] at this
  | inf => simp [PyFloat.isFinite] at this
  | ninf => simp [PyFloat.isFinite] at this

theorem lsap_square {mat : List (List PyFloat)} {n : Nat} (hn : 1 ≤ n)
    (hlen : mat.length = n) (hrows : ∀ r ∈ mat, r.length = n)
    (hfin : ∀ r ∈ mat, ∀ x ∈ r, x.isFinite = true) :
    ∃ cols c, linear_sum_assignment mat = Except.ok (List.range n, cols) ∧
      cols.Perm (List.range n) ∧
      pairsCost mat ((List.range n).zip cols) = some c ∧
      ∀ p c', p.Perm (List.range n) →
        pairsCost mat ((List.range n).zip p) = some c' → c ≤ c' := by
  have hne : n ≠ 0 := by omega
  have hhead : (mat.headD []).length = n := by
    cases mat with
    | nil => simp at hlen; omega
    | cons r t => exact hrows r (List.mem_cons_self r t)
  have hall : (mat.all (fun row => row.length = (mat.headD []).length)) = true := by
    rw [List.all_eq_true]
    intro r hr
    simp only [decide_eq_true_eq]
    rw [hrows r hr, hhead]
  have hany : (mat.any (fun row => row.any PyFloat.isInvalidEntry)) = false := by
    rw [List.any_eq_false]
    intro r hr
    rw [Bool.not_eq_true, List.any_eq_false]
    intro x hx
    have := hfin r hr x hx
    cases x <;> simp_all [PyFloat.isFinite, PyFloat.isInvalidEntry]
  have hid : ∃ c0, pairsCost mat ((List.range n).zip (List.range n)) = some c0 := by
    apply pairsCost_all_some
    intro p hp
    obtain ⟨a, b⟩ := p
    have h1 := List.of_mem_zip hp
    exact entryAt_finite hlen hrows hfin (List.mem_range.mp h1.1) (List.mem_range.mp h1.2)
  obtain ⟨c0, hc0⟩ := hid
  have hidmem : ((List.range n, List.range n), c0) ∈ feasibleCandidates mat n n n :=
    mem_feasibleCandidates.mpr ⟨identity_mem_allCandidates n, hc0⟩
  have hfne : feasibleCandidates mat n n n ≠ [] := by
    intro h
    rw [h] at hidmem
    cases hidmem
  obtain ⟨best, hbest⟩ := pickBest_isSome _ hfne
  obtain ⟨⟨brows, bcols⟩, bcost⟩ := best
  have hbmem := pickBest_mem _ _ hbest
  obtain ⟨hbcand, hbcost⟩ := mem_feasibleCandidates.mp hbmem
  obtain ⟨hbrows, hbperm⟩ := mem_allCandidates_square hbcand
  simp only at hbrows hbperm hbcost
  refine ⟨bcols, bcost, ?_, hbperm, ?_, ?_⟩
  · have hall2 : (mat.all fun row => decide (row.length = n)) = true := by
      rw [List.all_eq_true]
      intro r hr
      simp only [decide_eq_true_eq]
      exact hrows r hr
    simp only [linear_sum_assignment, hlen, hhead, Nat.min_self, hany, hne, hbest, hall2,
      if_false, Bool.false_eq_true, ite_false, ite_true, hbrows]
  · rw [hbrows] at hbcost
    exact hbcost
  · intro p c' hp hpc
    have hmem : ((List.range n, p), c') ∈ feasibleCandidates mat n n n :=
      mem_feasibleCandidates.mpr
        ⟨mem_allCandidates.mpr ⟨List.Sublist.refl _, List.length_range n,
          mem_injLists.mpr ⟨List.range n, List.Sublist.refl _, List.length_range n, hp⟩⟩, hpc⟩
    exact pickBest_min _ _ hbest _ hmem

theorem mapExcept_listAt_range {n : Nat} :
    ∀ {cols : List Nat}, (∀ i ∈ cols, i < n) →
      mapExcept (listAt (List.range n)) cols = Except.ok cols := by
  intro cols
  induction cols with
  | nil => intro _; rfl
  | cons i rest ih =>
    intro h
    have hi : i < n := h i (List.mem_cons_self i rest)
    have hat : listAt (List.range n) i = Except.ok i := by
      simp [listAt, List.getElem?_range hi]
    simp only [mapExcept, hat, ih (fun j hj => h j (List.mem_cons_of_mem i hj))]

theorem optimize_route_square {mat : List (List PyFloat)} {n : Nat} (hn : 1 ≤ n)
    (hlen : mat.length = n) (hrows : ∀ r ∈ mat, r.length = n)
    (hfin : ∀ r ∈ mat, ∀ x ∈ r, x.isFinite = true) :
    ∃ cols c, _optimize_route_scipy mat = Except.ok cols ∧
      cols.Perm (List.range n) ∧
      pairsCost mat ((List.range n).zip cols) = some c ∧
      ∀ p c', p.Perm (List.range n) →
        pairsCost mat ((List.range n).zip p) = some c' → c ≤ c' := by
  obtain ⟨cols, c, hls, hperm, hcost, hmin⟩ := lsap_square hn hlen hrows hfin
  refine ⟨cols, c, ?_, hperm, hcost, hmin⟩
  simp only [_optimize_route_scipy, hls]
  exact mapExcept_listAt_range (fun i hi => List.mem_range.mp (hperm.subset hi))

theorem entryPos_elim {mat : List (List PyFloat)} {i j : Nat}
    (h : entryPos mat i j = true) :
    ∃ q, entryAt mat i j = some (PyFloat.finite q) ∧ 0 < q := by
  unfold entryPos at h
  cases he : entryAt mat i j with
  | none =>
    simp only [he] at h
    exact absurd h Bool.false_ne_true
  | some x =>
    cases x with
    | finite q =>
      simp only [he, decide_eq_true_eq] at h
      exact ⟨q, rfl, h⟩
    | nan =>
      simp only [he] at h
      exact absurd h Bool.false_ne_true
    | inf =>
      simp only [he] at h
      exact absurd h Bool.false_ne_true
    | ninf =>
      simp only [he] at h
      exact absurd h Bool.false_ne_true

theorem allFinite_of_entryAt {mat : List (List PyFloat)} {n : Nat}
    (hlen : mat.length = n) (hrows : ∀ r ∈ mat, r.length = n)
    (h : ∀ i j, i < n → j < n → ∃ q, entryAt mat i j = some (PyFloat.finite q)) :
    ∀ r ∈ mat, ∀ x ∈ r, x.isFinite = true := by
  intro r hr x hx
  obtain ⟨i, hi, hri⟩ := List.mem_iff_getElem.mp hr
  obtain ⟨j, hj, hxj⟩ := List.mem_iff_getElem.mp hx
  have hin : i < n := hlen ▸ hi
  have hjn : j < n := by
    rw [hrows r hr] at hj
    exact hj
  obtain ⟨q, hq⟩ := h i j hin hjn
  have hx' : entryAt mat i j = some x := by
    simp only [entryAt, List.get?_eq_getElem?, List.getElem?_eq_getElem hi, Option.some_bind,
      hri]
    rw [List.getElem?_eq_getElem hj, hxj]
  rw [hx'] at hq
  injection hq with hq'
  rw [hq']
  rfl

theorem mem_zip_self {α : Type} : ∀ {l : List α} {p : α × α}, p ∈ l.zip l → p.1 = p.2 := by
  intro l
  induction l with
  | nil => intro p hp; cases hp
  | cons a t ih =>
    intro p hp
    rw [List.zip_cons_cons] at hp
    rcases List.mem_cons.mp hp with heq | hmem
    · rw [heq]
    · exact ih hmem

theorem perm_ne_range_get {n : Nat} {cols : List Nat} (hperm : cols.Perm (List.range n))
    (hne : cols ≠ List.range n) :
    ∃ i, ∃ h : i < cols.length, cols.get ⟨i, h⟩ ≠ i := by
  by_contra hc
  push_neg at hc
  apply hne
  have hl : cols.length = n := by rw [hperm.length_eq, List.length_range]
  apply List.ext_get (by rw [hl, List.length_range])
  intro i h1 h2
  rw [List.get_range]
  exact hc i h1

theorem optimize_route_identity {mat : List (List PyFloat)} {n : Nat} (hn : 1 ≤ n)
    (hlen : mat.length = n) (hrows : ∀ r ∈ mat, r.length = n)
    (hdiag : ∀ i, i < n → entryAt mat i i = some (PyFloat.finite 0))
    (hpos : ∀ i j, i < n → j < n → i ≠ j → entryPos mat i j = true) :
    _optimize_route_scipy mat = Except.ok (List.range n) := by
  have hfin : ∀ r ∈ mat, ∀ x ∈ r, x.isFinite = true := by
    apply allFinite_of_entryAt hlen hrows
    intro i j hi hj
    by_cases hij : i = j
    · subst hij
      exact ⟨0, hdiag i hi⟩
    · obtain ⟨q, hq, _⟩ := entryPos_elim (hpos i j hi hj hij)
      exact ⟨q, hq⟩
  obtain ⟨cols, c, hok, hperm, hcost, hmin⟩ := optimize_route_square hn hlen hrows hfin
  by_cases hcid : cols = List.range n
  · rw [hcid] at hok
    exact hok
  · exfalso
    have hid0 : pairsCost mat ((List.range n).zip (List.range n)) = some 0 := by
      apply pairsCost_zero
      intro p hp
      have hps := mem_zip_self hp
      obtain ⟨a, b⟩ := p
      have h1 := List.of_mem_zip hp
      simp only at hps
      rw [← hps]
      exact hdiag a (List.mem_range.mp h1.1)
    have hc0 : c ≤ 0 := hmin (List.range n) 0 (List.Perm.refl _) hid0
    have hnn : ∀ p ∈ (List.range n).zip cols, ∀ q,
        entryAt mat p.1 p.2 = some (PyFloat.finite q) → 0 ≤ q := by
      intro p hp q hq
      obtain ⟨a, b⟩ := p
      have h1 := List.of_mem_zip hp
      have ha : a < n := List.mem_range.mp h1.1
      have hb : b < n := List.mem_range.mp (hperm.subset h1.2)
      by_cases hab : a = b
      · subst hab
        rw [hdiag a ha] at hq
        injection hq with hq1
        injection hq1 with hq2
        rw [← hq2]
      · obtain ⟨q2, hq2, hq2pos⟩ := entryPos_elim (hpos a b ha hb hab)
        rw [hq] at hq2
        injection hq2 with hq3
        injection hq3 with hq4
        rw [hq4]
        exact le_of_lt hq2pos
    obtain ⟨i, hilt, hget⟩ := perm_ne_range_get hperm hcid
    have hin : i < n := by
      rw [hperm.length_eq, List.length_range] at hilt
      exact hilt
    have hbn : cols.get ⟨i, hilt⟩ < n :=
      List.mem_range.mp (hperm.subset (List.get_mem cols i hilt))
    have hziplen : i < ((List.range n).zip cols).length := by
      rw [List.length_zip, List.length_range, hperm.length_eq, List.length_range,
        Nat.min_self]
      exact hin
    have hmem : (i, cols.get ⟨i, hilt⟩) ∈ (List.range n).zip cols := by
      have hgz := @List.get_zip Nat Nat (List.range n) cols ⟨i, hziplen⟩
      have : ((List.range n).zip cols).get ⟨i, hziplen⟩ = (i, cols.get ⟨i, hilt⟩) := by
        rw [hgz]
        congr 1
        exact List.get_range i _
      rw [← this]
      exact List.get_mem _ i hziplen
    have hpospair : ∀ q, entryAt mat i (cols.get ⟨i, hilt⟩) = some (PyFloat.finite q) → 0 < q := by
      intro q hq
      obtain ⟨q2, hq2, hq2pos⟩ :=
        entryPos_elim (hpos i (cols.get ⟨i, hilt⟩) hin hbn (fun h => hget h.symm))
      rw [hq] at hq2
      injection hq2 with hq3
      injection hq3 with hq4
      rw [hq4]
      exact hq2pos
    have hposc : 0 < c :=
      pairsCost_pos hnn hcost ⟨(i, cols.get ⟨i, hilt⟩), hmem, hpospair⟩
    exact absurd hc0 (not_le.mpr hposc)

theorem mapExcept_map {α : Type} (f : Nat → Except PyError α) (g : Nat → Nat) :
    ∀ (ks : List Nat), mapExcept f (ks.map g) = mapExcept (fun i => f (g i)) ks := by
  intro ks
  induction ks with
  | nil => rfl
  | cons k t ih => simp only [List.map_cons, mapExcept, ih]

theorem mapExcept_lookup_values {α : Type} :
    ∀ (l : List α),
      mapExcept (valuesAt l) (List.range l.length) = Except.ok l := by
  intro l
  induction l with
  | nil => rfl
  | cons a t ih =>
    rw [List.length_cons, List.range_succ_eq_map, mapExcept, mapExcept_map]
    exact congrArg (fun r => match r with
      | Except.error e => Except.error e
      | Except.ok vs => Except.ok (a :: vs)) ih

theorem build_eq (locations : Locations) (env : OsrmEnv) (filename : String) :
    build locations env filename =
      match buildPipeline locations env with
      | Except.error e => Except.error e
      | Except.ok m =>
        Except.ok { warnings := if splitext_ext filename ≠ ".html"
                      then [extensionWarning (splitext_ext filename)] else [],
                    saved_filename := filename, saved_map := m } := by
  cases h1 : _get_distance_matrix locations env.tableResp with
  | error e => simp only [build, buildPipeline, h1]
  | ok dm =>
    cases h2 : _optimize_route_scipy dm with
    | error e => simp only [build, buildPipeline, h1, h2]
    | ok ro =>
      cases h3 : mapExcept (valuesAt (locations.map Prod.snd)) ro with
      | error e => simp only [build, buildPipeline, h1, h2, h3]
      | ok ol =>
        cases h4 : _get_route_via_osrm ol env.routeResp with
        | error e => simp only [build, buildPipeline, h1, h2, h3, h4]
        | ok rc =>
          cases h5 : _visualize_route locations rc with
          | error e => simp only [build, buildPipeline, h1, h2, h3, h4, h5]
          | ok m => simp only [build, buildPipeline, h1, h2, h3, h4, h5]

theorem visualize_no_warehouse {locations : Locations} (rc : Json)
    (h : locations.find? (fun p => p.1 = "warehouse") = none) :
    _visualize_route locations rc = Except.error (PyError.keyError "warehouse") := by
  simp only [_visualize_route, dictGet, h]

/-! ## Claim theorems -/

/-- C1: for every `N ≥ 1` and every square `N × N` distance matrix of finite
numbers, the route order returned by `_optimize_route_scipy` is a sequence of
`N` integer indices that is a permutation of `[0, N)`: no index repeated,
none omitted. -/
theorem claim_C1_route_order_permutation
    (mat : List (List PyFloat)) (n : Nat) (hn : 1 ≤ n)
    (hlen : mat.length = n) (hrows : ∀ r ∈ mat, r.length = n)
    (hfin : ∀ r ∈ mat, ∀ x ∈ r, x.isFinite = true) :
    ∃ order, _optimize_route_scipy mat = Except.ok order ∧
      order.length = n ∧ order.Perm (List.range n) := by
  obtain ⟨cols, _, hok, hperm, _, _⟩ := optimize_route_square hn hlen hrows hfin
  exact ⟨cols, hok, by rw [hperm.length_eq, List.length_range], hperm⟩

theorem claim_C1_witness :
    ∃ order, _optimize_route_scipy matFix2 = Except.ok order ∧
      order.length = 2 ∧ order.Perm (List.range 2) :=
  claim_C1_route_order_permutation matFix2 2 (by decide) (by decide) (by decide) (by decide)

/-- C2: on an `N × N` matrix with zero diagonal and strictly positive
off-diagonal entries, `_optimize_route_scipy` returns the identity order
`[0, 1, ..., N-1]`, and the build's reordering step
`[list(self.locations.values())[i] for i in route_order]` then yields the
location values exactly in insertion order — the optimization step never
reorders anything. -/
theorem claim_C2_identity_order
    (mat : List (List PyFloat)) (n : Nat) (hn : 1 ≤ n)
    (hlen : mat.length = n) (hrows : ∀ r ∈ mat, r.length = n)
    (hdiag : ∀ i, i < n → entryAt mat i i = some (PyFloat.finite 0))
    (hpos : ∀ i, i < n → ∀ j, j < n → i ≠ j → entryPos mat i j = true) :
    _optimize_route_scipy mat = Except.ok (List.range n) ∧
    ∀ locations : Locations, locations.length = n →
      mapExcept (valuesAt (locations.map Prod.snd)) (List.range n) =
      Except.ok (locations.map Prod.snd) := by
  refine ⟨optimize_route_identity hn hlen hrows hdiag
    (fun i j hi hj => hpos i hi j hj), ?_⟩
  intro locations hloc
  have hl : (locations.map Prod.snd).length = n := by rw [List.length_map, hloc]
  rw [← hl]
  exact mapExcept_lookup_values (locations.map Prod.snd)

theorem claim_C2_witness :
    _optimize_route_scipy matFix2 = Except.ok (List.range 2) ∧
    ∀ locations : Locations, locations.length = 2 →
      mapExcept (valuesAt (locations.map Prod.snd)) (List.range 2) =
      Except.ok (locations.map Prod.snd) :=
  claim_C2_identity_order matFix2 2 (by decide) (by decide) (by decide) (by decide) (by decide)

/-- C3: the optimizer computes a minimum-weight assignment — a bijection
between row and column indices minimizing the total assigned distance — on
the distance matrix and returns, as the visiting order, the column assigned
to each row read out in row order: the returned list is exactly the
`col_ind` of `linear_sum_assignment`, and it is an optimal assignment. -/
theorem claim_C3_minimum_weight_assignment
    (mat : List (List PyFloat)) (n : Nat) (hn : 1 ≤ n)
    (hlen : mat.length = n) (hrows : ∀ r ∈ mat, r.length = n)
    (hfin : ∀ r ∈ mat, ∀ x ∈ r, x.isFinite = true) :
    ∃ row_ind col_ind,
      linear_sum_assignment mat = Except.ok (row_ind, col_ind) ∧
      _optimize_route_scipy mat = Except.ok col_ind ∧
      IsMinimumWeightAssignment mat col_ind := by
  obtain ⟨cols, c, hls, hperm, hcost, hmin⟩ := lsap_square hn hlen hrows hfin
  refine ⟨List.range n, cols, hls, ?_, ?_, c, ?_, ?_⟩
  · simp only [_optimize_route_scipy, hls]
    exact mapExcept_listAt_range (fun i hi => List.mem_range.mp (hperm.subset hi))
  · rw [hlen]
    exact hperm
  · unfold specAssignmentCost
    rw [hlen]
    exact hcost
  · intro q c' hq hqc
    unfold specAssignmentCost at hqc
    rw [hlen] at hq hqc
    exact hmin q c' hq hqc

theorem claim_C3_witness :
    ∃ row_ind col_ind,
      linear_sum_assignment matFix2 = Except.ok (row_ind, col_ind) ∧
      _optimize_route_scipy matFix2 = Except.ok col_ind ∧
      IsMinimumWeightAssignment matFix2 col_ind :=
  claim_C3_minimum_weight_assignment matFix2 2 (by decide) (by decide) (by decide) (by decide)

/-- C9: the Route Order Optimizer is deterministic — it is a pure function
of the distance matrix, so two runs of `_optimize_route_scipy` on the same
matrix yield the same order. -/
theorem claim_C9_deterministic (mat : List (List PyFloat)) :
    _optimize_route_scipy mat = _optimize_route_scipy mat := rfl

/-- C4, as stated, is false: a non-square (tall) finite matrix does not make
`_optimize_route_scipy` fail — on `[[0], [1]]` (2 rows, 1 column) it
succeeds and returns `[0]`. -/
theorem claim_C4_counterexample :
    _optimize_route_scipy [[PyFloat.finite 0], [PyFloat.finite 1]] = Except.ok [0] := by
  with_unfolding_all rfl

/-- C4 (amended): the source has no `OptimizationError` class.
`_optimize_route_scipy` succeeds on every square matrix of finite numbers
(`N ≥ 1`); it fails with the solver's
`ValueError("matrix contains invalid numeric entries")` whenever a
well-shaped (rectangular, non-empty) matrix contains a `NaN` or `-inf`
entry; a non-square matrix does not in general fail (see the
counterexample). -/
theorem claim_C4_amended :
    (∀ (mat : List (List PyFloat)) (n : Nat), 1 ≤ n → mat.length = n →
      (∀ r ∈ mat, r.length = n) → (∀ r ∈ mat, ∀ x ∈ r, x.isFinite = true) →
      ∃ order, _optimize_route_scipy mat = Except.ok order) ∧
    (∀ mat : List (List PyFloat), mat ≠ [] →
      (mat.all fun row => row.length = (mat.headD []).length) = true →
      (mat.any fun row => row.any PyFloat.isInvalidEntry) = true →
      _optimize_route_scipy mat =
        Except.error (PyError.valueError "matrix contains invalid numeric entries")) := by
  constructor
  · intro mat n hn hlen hrows hfin
    obtain ⟨cols, _, hok, _, _, _⟩ := optimize_route_square hn hlen hrows hfin
    exact ⟨cols, hok⟩
  · intro mat hne hall hany
    have hlz : ¬ mat.length = 0 := by
      intro h
      exact hne (List.length_eq_zero.mp h)
    simp only [_optimize_route_scipy, linear_sum_assignment, hlz, hall, hany,
      if_false, ite_true, ite_false]

theorem claim_C4_witness :
    (∃ order, _optimize_route_scipy matFix2 = Except.ok order) ∧
    _optimize_route_scipy [[PyFloat.finite 0, PyFloat.nan], [PyFloat.inf, PyFloat.finite 1]] =
      Except.error (PyError.valueError "matrix contains invalid numeric entries") :=
  ⟨claim_C4_amended.1 matFix2 2 (by decide) (by decide) (by decide) (by decide),
   claim_C4_amended.2 _ (by decide) (by decide) (by decide)⟩

/-- C5, as stated, is false in one respect: the source defines no
`RoutingServiceError` class.  At the concrete scenario-B input (distance
service answering HTTP 500) the build raises the bare
`Exception("Failed to obtain distance matrix from OSRM")` — a generic
`Exception`, not a distinct `RoutingServiceError` — though it does abort
with an error (and hence writes no file). -/
theorem claim_C5_counterexample :
    build locA ⟨⟨500, Json.null⟩, ⟨200, routeBodyA⟩⟩ "optimized_route.html" =
      Except.error (PyError.exceptionMsg "Failed to obtain distance matrix from OSRM") := by
  with_unfolding_all rfl

/-- C5 (amended): a non-success status from the distance service makes
`build` return the bare `Exception("Failed to obtain distance matrix from
OSRM")`, and a non-success status from the geometry service (when the
earlier stages succeed) makes it return `Exception("Failed to obtain a
route from OSRM")`; in either case `build` produces an error instead of a
`BuildOk`, so the `route_map.save` call is never reached and no file is
written. -/
theorem claim_C5_amended :
    (∀ (locations : Locations) (env : OsrmEnv) (filename : String),
      env.tableResp.status_code ≠ 200 →
      build locations env filename =
        Except.error (PyError.exceptionMsg "Failed to obtain distance matrix from OSRM")) ∧
    (∀ (locations : Locations) (env : OsrmEnv) (filename : String)
      (dm : List (List PyFloat)) (ro : List Nat) (ol : List (ℚ × ℚ)),
      _get_distance_matrix locations env.tableResp = Except.ok dm →
      _optimize_route_scipy dm = Except.ok ro →
      mapExcept (valuesAt (locations.map Prod.snd)) ro = Except.ok ol →
      env.routeResp.status_code ≠ 200 →
      build locations env filename =
        Except.error (PyError.exceptionMsg "Failed to obtain a route from OSRM")) := by
  constructor
  · intro loc env f h
    rw [build_eq]
    have hdm : _get_distance_matrix loc env.tableResp =
        Except.error (PyError.exceptionMsg "Failed to obtain distance matrix from OSRM") := by
      unfold _get_distance_matrix
      rw [if_pos h]
    simp only [buildPipeline, hdm]
  · intro loc env f dm ro ol h1 h2 h3 h4
    rw [build_eq]
    have hro : _get_route_via_osrm ol env.routeResp =
        Except.error (PyError.exceptionMsg "Failed to obtain a route from OSRM") := by
      unfold _get_route_via_osrm
      rw [if_pos h4]
    simp only [buildPipeline, h1, h2, h3, hro]

theorem claim_C5_witness :
    build locA ⟨⟨503, Json.null⟩, ⟨200, routeBodyA⟩⟩ "x.html" =
      Except.error (PyError.exceptionMsg "Failed to obtain distance matrix from OSRM") ∧
    build locA ⟨⟨200, tableBodyA⟩, ⟨503, Json.null⟩⟩ "x.html" =
      Except.error (PyError.exceptionMsg "Failed to obtain a route from OSRM") :=
  ⟨claim_C5_amended.1 locA ⟨⟨503, Json.null⟩, ⟨200, routeBodyA⟩⟩ "x.html" (by decide),
   claim_C5_amended.2 locA ⟨⟨200, tableBodyA⟩, ⟨503, Json.null⟩⟩ "x.html"
     matFix2 [0, 1] [(0, 0), (1, 1)]
     (by with_unfolding_all rfl) (by with_unfolding_all rfl)
     (by with_unfolding_all rfl) (by decide)⟩

/-- C6, as stated, is false: `_get_distance_matrix` performs no shape check
at all.  With two input locations and a service response whose `distances`
field is a 1×1 array, it succeeds and returns the 1×1 matrix instead of
failing — the result is not N×N and no `MalformedResponseError` is raised
(no such class exists in the source). -/
theorem claim_C6_counterexample :
    _get_distance_matrix [("warehouse", (0, 0)), ("store", (1, 1))]
      ⟨200, Json.obj [("distances", Json.arr [Json.arr [Json.num 0]])]⟩ =
      Except.ok [[PyFloat.finite 0]] := by
  with_unfolding_all rfl

/-- C6 (amended): on a 200 response `_get_distance_matrix` returns
`np.array(data["distances"])` exactly as sent — whatever its shape — and
raises the builtin `KeyError("distances")` (not a `MalformedResponseError`,
which does not exist in the source) when the field is absent; its result is
N×N only when the service sent an N×N array. -/
theorem claim_C6_amended :
    (∀ (locations : Locations) (resp : HttpResponse) (fields : List (String × Json)),
      resp.status_code = 200 → resp.body = Json.obj fields →
      Json.lookupField fields "distances" = none →
      _get_distance_matrix locations resp = Except.error (PyError.keyError "distances")) ∧
    (∀ (locations : Locations) (resp : HttpResponse) (d : Json) (m : List (List PyFloat)),
      resp.status_code = 200 → resp.body.subscript "distances" = Except.ok d →
      npArray2D d = Except.ok m →
      _get_distance_matrix locations resp = Except.ok m) := by
  constructor
  · intro loc resp fields h200 hbody hlook
    unfold _get_distance_matrix
    rw [if_neg (fun hc => hc h200)]
    simp only [hbody, Json.subscript, hlook]
  · intro loc resp d m h200 hsub hnp
    unfold _get_distance_matrix
    rw [if_neg (fun hc => hc h200)]
    simp only [hsub, hnp]

theorem claim_C6_witness :
    _get_distance_matrix locA ⟨200, Json.obj [("other", Json.null)]⟩ =
      Except.error (PyError.keyError "distances") ∧
    _get_distance_matrix locA ⟨200, tableBodyA⟩ = Except.ok matFix2 :=
  ⟨claim_C6_amended.1 locA ⟨200, Json.obj [("other", Json.null)]⟩
     [("other", Json.null)] rfl rfl (by with_unfolding_all rfl),
   claim_C6_amended.2 locA ⟨200, tableBodyA⟩
     (Json.arr [Json.arr [Json.num 0, Json.num 10], Json.arr [Json.num 10, Json.num 0]])
     matFix2 rfl (by with_unfolding_all rfl) (by with_unfolding_all rfl)⟩

/-- C7, as stated, is false about the error's identity: on a 200 response
with an empty `routes` array, `_get_route_via_osrm` raises the builtin
`IndexError` (from `data["routes"][0]`), not a `MalformedResponseError` —
no such class exists in the source. -/
theorem claim_C7_counterexample :
    _get_route_via_osrm [] ⟨200, Json.obj [("routes", Json.arr [])]⟩ =
      Except.error PyError.indexError := by
  with_unfolding_all rfl

/-- C7 (amended): on a successful (200) response `_get_route_via_osrm`
does fail whenever no route or no geometry is present, but with the builtin
lookup errors of `data["routes"][0]["geometry"]["coordinates"]`: a
`KeyError` for a missing `routes`, `geometry` or `coordinates` field and an
`IndexError` for an empty `routes` array — not with a
`MalformedResponseError` class, which does not exist in the source. -/
theorem claim_C7_amended :
    (∀ (ol : List (ℚ × ℚ)) (resp : HttpResponse) (fields : List (String × Json)),
      resp.status_code = 200 → resp.body = Json.obj fields →
      Json.lookupField fields "routes" = none →
      _get_route_via_osrm ol resp = Except.error (PyError.keyError "routes")) ∧
    (∀ (ol : List (ℚ × ℚ)) (resp : HttpResponse) (fields : List (String × Json)),
      resp.status_code = 200 → resp.body = Json.obj fields →
      Json.lookupField fields "routes" = some (Json.arr []) →
      _get_route_via_osrm ol resp = Except.error PyError.indexError) ∧
    (∀ (ol : List (ℚ × ℚ)) (resp : HttpResponse) (fields : List (String × Json))
      (r0 : List (String × Json)) (rest : List Json),
      resp.status_code = 200 → resp.body = Json.obj fields →
      Json.lookupField fields "routes" = some (Json.arr (Json.obj r0 :: rest)) →
      Json.lookupField r0 "geometry" = none →
      _get_route_via_osrm ol resp = Except.error (PyError.keyError "geometry")) ∧
    (∀ (ol : List (ℚ × ℚ)) (resp : HttpResponse) (fields : List (String × Json))
      (r0 : List (String × Json)) (rest : List Json) (g : List (String × Json)),
      resp.status_code = 200 → resp.body = Json.obj fields →
      Json.lookupField fields "routes" = some (Json.arr (Json.obj r0 :: rest)) →
      Json.lookupField r0 "geometry" = some (Json.obj g) →
      Json.lookupField g "coordinates" = none →
      _get_route_via_osrm ol resp = Except.error (PyError.keyError "coordinates")) := by
  refine ⟨?_, ?_, ?_, ?_⟩
  · intro ol resp fields h200 hbody hlook
    unfold _get_route_via_osrm
    rw [if_neg (fun hc => hc h200)]
    simp only [hbody, Json.subscript, hlook]
  · intro ol resp fields h200 hbody hlook
    unfold _get_route_via_osrm
    rw [if_neg (fun hc => hc h200)]
    simp only [hbody, Json.subscript, hlook, Json.index, List.get?_eq_getElem?,
      List.getElem?_nil]
  · intro ol resp fields r0 rest h200 hbody hlook hgeom
    unfold _get_route_via_osrm
    rw [if_neg (fun hc => hc h200)]
    simp only [hbody, Json.subscript, hlook, Json.index, List.get?_eq_getElem?,
      List.getElem?_cons_zero, hgeom]
  · intro ol resp fields r0 rest g h200 hbody hlook hgeom hcoords
    unfold _get_route_via_osrm
    rw [if_neg (fun hc => hc h200)]
    simp only [hbody, Json.subscript, hlook, Json.index, List.get?_eq_getElem?,
      List.getElem?_cons_zero, hgeom, hcoords]

theorem claim_C7_witness :
    _get_route_via_osrm [] ⟨200, Json.obj [("code", Json.str "Ok")]⟩ =
      Except.error (PyError.keyError "routes") ∧
    _get_route_via_osrm [(0, 0)] ⟨200, Json.obj [("routes", Json.arr [])]⟩ =
      Except.error PyError.indexError ∧
    _get_route_via_osrm [] ⟨200, Json.obj [("routes", Json.arr [Json.obj []])]⟩ =
      Except.error (PyError.keyError "geometry") ∧
    _get_route_via_osrm []
      ⟨200, Json.obj [("routes", Json.arr [Json.obj [("geometry", Json.obj [])]])]⟩ =
      Except.error (PyError.keyError "coordinates") :=
  ⟨claim_C7_amended.1 [] _ [("code", Json.str "Ok")] rfl rfl (by with_unfolding_all rfl),
   claim_C7_amended.2.1 [(0, 0)] _ [("routes", Json.arr [])] rfl rfl
     (by with_unfolding_all rfl),
   claim_C7_amended.2.2.1 [] _ [("routes", Json.arr [Json.obj []])] [] [] rfl rfl
     (by with_unfolding_all rfl) (by with_unfolding_all rfl),
   claim_C7_amended.2.2.2 [] _ [("routes", Json.arr [Json.obj [("geometry", Json.obj [])]])]
     [("geometry", Json.obj [])] [] [] rfl rfl
     (by with_unfolding_all rfl) (by with_unfolding_all rfl) (by with_unfolding_all rfl)⟩

/-- C8, as stated, is false about the error's identity: when the
`"warehouse"` key is absent, the renderer raises the builtin
`KeyError("warehouse")` (from `self.locations["warehouse"]`), not a
`MissingWarehouseError` — no such class exists in the source.  Shown on a
full build with two locations and scenario-A services. -/
theorem claim_C8_counterexample :
    build [("store", (1, 1)), ("depot", (2, 2))] envA "optimized_route.html" =
      Except.error (PyError.keyError "warehouse") := by
  with_unfolding_all rfl

/-- C8 (amended): when the `"warehouse"` key is absent from the locations
mapping, the renderer — and hence the build, once the earlier stages
succeed — does not fail silently: it raises the builtin
`KeyError("warehouse")` (the source raises no `MissingWarehouseError`). -/
theorem claim_C8_amended :
    (∀ (locations : Locations) (rc : Json),
      locations.find? (fun p => p.1 = "warehouse") = none →
      _visualize_route locations rc = Except.error (PyError.keyError "warehouse")) ∧
    (∀ (locations : Locations) (env : OsrmEnv) (filename : String)
      (dm : List (List PyFloat)) (ro : List Nat) (ol : List (ℚ × ℚ)) (rc : Json),
      locations.find? (fun p => p.1 = "warehouse") = none →
      _get_distance_matrix locations env.tableResp = Except.ok dm →
      _optimize_route_scipy dm = Except.ok ro →
      mapExcept (valuesAt (locations.map Prod.snd)) ro = Except.ok ol →
      _get_route_via_osrm ol env.routeResp = Except.ok rc →
      build locations env filename = Except.error (PyError.keyError "warehouse")) := by
  constructor
  · intro loc rc h
    exact visualize_no_warehouse rc h
  · intro loc env f dm ro ol rc h h1 h2 h3 h4
    rw [build_eq]
    simp only [buildPipeline, h1, h2, h3, h4, visualize_no_warehouse rc h]

theorem claim_C8_witness :
    _visualize_route [("store", (1, 1))] (Json.arr []) =
      Except.error (PyError.keyError "warehouse") ∧
    build [("store", (3, 3)), ("depot", (2, 2))] envA "y.html" =
      Except.error (PyError.keyError "warehouse") :=
  ⟨claim_C8_amended.1 [("store", (1, 1))] (Json.arr []) (by with_unfolding_all rfl),
   claim_C8_amended.2 [("store", (3, 3)), ("depot", (2, 2))] envA "y.html"
     matFix2 [0, 1] [(3, 3), (2, 2)]
     (Json.arr [Json.arr [Json.num 0, Json.num 0], Json.arr [Json.num (1/2), Json.num (1/2)],
       Json.arr [Json.num 1, Json.num 1]])
     (by with_unfolding_all rfl) (by with_unfolding_all rfl) (by with_unfolding_all rfl)
     (by with_unfolding_all rfl) (by with_unfolding_all rfl)⟩

/-- C10: an output filename whose extension is not `".html"` never aborts
the build: whenever the default-named build succeeds, the same build with
the odd filename still succeeds, saves under that literal filename, and
logs the extension warning; and whenever the pipeline fails, it fails with
the same error regardless of the filename. -/
theorem claim_C10_extension_warning
    (locations : Locations) (env : OsrmEnv) (filename : String)
    (hext : splitext_ext filename ≠ ".html") :
    (∀ out, build locations env "optimized_route.html" = Except.ok out →
      build locations env filename = Except.ok
        { warnings := [extensionWarning (splitext_ext filename)],
          saved_filename := filename, saved_map := out.saved_map }) ∧
    (∀ e, build locations env "optimized_route.html" = Except.error e →
      build locations env filename = Except.error e) := by
  constructor
  · intro out hout
    rw [build_eq] at hout ⊢
    cases hp : buildPipeline locations env with
    | error e =>
      rw [hp] at hout
      cases hout
    | ok m =>
      simp only [hp] at hout ⊢
      injection hout with h'
      rw [← h']
      rw [if_pos hext]
  · intro e he
    rw [build_eq] at he ⊢
    cases hp : buildPipeline locations env with
    | error e' =>
      simp only [hp] at he ⊢
      exact he
    | ok m =>
      simp only [hp] at he
      cases he

theorem claim_C10_witness :
    build locA envA "route.json" = Except.ok
      { warnings := [extensionWarning (splitext_ext "route.json")],
        saved_filename := "route.json", saved_map := mapA } :=
  (claim_C10_extension_warning locA envA "route.json" (by with_unfolding_all decide)).1
    ⟨[], "optimized_route.html", mapA⟩ (by with_unfolding_all rfl)
